import Mathlib

/-!
# Verification of the CSV Big-to-Small File Converter core

A shallow embedding of the streaming split-and-transform engine of the
CSV-Big-to-Small-File-Converter repository: the row model, the
transformation pipeline (`src/transformers/index.js`), the per-format
writers (`src/formatters/index.js`), the sequential split engine
(`CSVParser.processSingleThread` in `src/csvparser.js`) and the parallel
worker's chunk processing (`src/workers/csv-worker.js`), together with
theorems settling the specification claims about them.

JavaScript values appearing in rows are modelled by `JSValue` (strings,
numbers as rationals, booleans and null); a missing object property is
`Option.none`.  JavaScript `Date`, regular expressions, email and URL
checks are passed in as oracle functions (`JSOracles`), since the claims
never depend on their internals.
-/

namespace CSVConv

/-- A JavaScript value stored in a row: string, number (modelled as a
rational; the claims never exercise non-numeric doubles), boolean or null.
A missing (undefined) property is represented as `Option.none` outside
this type. -/
inductive JSValue where
  | vstr (s : String)
  | vnum (q : ℚ)
  | vbool (b : Bool)
  | vnull
deriving DecidableEq, BEq

/-- Canonical rendering of a number, standing in for JavaScript number
to-string conversion.  Integral values agree exactly with JavaScript
(`String(3) = "3"`, `String(-7) = "-7"`); no claim evaluates the
rendering of a non-integral number. -/
def numToString (q : ℚ) : String :=
  if q.den = 1 then toString q.num else toString q.num ++ "/" ++ toString q.den

/-- JavaScript `String(value)` on a `JSValue`. -/
def jsString : JSValue → String
  | .vstr s => s
  | .vnum q => numToString q
  | .vbool b => if b then "true" else "false"
  | .vnull => "null"

/-- JavaScript `String(value)` on a possibly-undefined value
(`String(undefined) = "undefined"`). -/
def jsStringOpt : Option JSValue → String
  | none => "undefined"
  | some v => jsString v

/-- JavaScript falsiness on our value domain: `0`, `false`, `""`, `null`
(and no others) are falsy. -/
def jsFalsy : JSValue → Bool
  | .vstr s => s = ""
  | .vnum q => q = 0
  | .vbool b => !b
  | .vnull => true

/-- Falsiness of a possibly-undefined value: `undefined` is falsy. -/
def jsFalsyOpt : Option JSValue → Bool
  | none => true
  | some v => jsFalsy v

/-! ### String primitives

The JavaScript string operations `toLowerCase`, `toUpperCase`, `trim`
and `split` are modelled character-wise over the underlying character
list (the runtime's byte-position iteration is observationally the same
on our data, and the list form reduces in the kernel). -/

/-- `s.toLowerCase()`. -/
def jsToLower (s : String) : String :=
  String.mk (s.data.map Char.toLower)

/-- `s.toUpperCase()`. -/
def jsToUpper (s : String) : String :=
  String.mk (s.data.map Char.toUpper)

/-- `s.trim()` on the character list. -/
def trimList (l : List Char) : List Char :=
  ((l.dropWhile Char.isWhitespace).reverse.dropWhile Char.isWhitespace).reverse

/-- `s.trim()`. -/
def jsTrim (s : String) : String :=
  String.mk (trimList s.data)

/-- `s.split(sep)` for a one-character separator, on character lists
(JavaScript semantics: the empty string splits to `[""]`, trailing
separators produce trailing empty fields). -/
def splitOnChar (sep : Char) : List Char → List (List Char)
  | [] => [[]]
  | c :: cs =>
    match splitOnChar sep cs with
    | [] => [[c]]
    | h :: t => if c = sep then [] :: h :: t else (c :: h) :: t

/-- `s.split(sep)` for a one-character separator. -/
def jsSplit (sep : Char) (s : String) : List String :=
  (splitOnChar sep s.data).map String.mk

/-- A row: a JavaScript object mapping column names to values, modelled
as an association list in property-insertion order. -/
abbrev Row : Type := List (String × JSValue)

/-- Property read `row[key]`: `none` means the property is undefined. -/
def rowGet (row : Row) (key : String) : Option JSValue :=
  (List.find? (fun kv => kv.1 = key) row).map (fun kv => kv.2)

/-- Property write `row[key] = v`: updates the existing entry in place or
appends a new one, as JavaScript objects do. -/
def rowSet (row : Row) (key : String) (v : JSValue) : Row :=
  if (List.find? (fun kv => kv.1 = key) row).isSome then
    List.map (fun kv => if kv.1 = key then (key, v) else kv) row
  else
    row ++ [(key, v)]

/-! ## CSV value escaping (`escapeCSVValue` in `csvparser.js` and
`CSVFormatter.escapeCSVValue` in `formatters/index.js`) -/

/-- The quoting trigger of `escapeCSVValue`: the string contains the
delimiter, a double quote, or a line terminator
(`str.includes(',') || str.includes('"') || str.includes('\n') || str.includes('\r')`). -/
def needsQuotingList (l : List Char) : Bool :=
  l.any (fun c => c == ',' || c == '"' || c == '\n' || c == '\r')

/-- `str.replace(/"/g, '""')`: double every embedded double quote. -/
def doubleQuotesList : List Char → List Char
  | [] => []
  | c :: cs => if c = '"' then '"' :: '"' :: doubleQuotesList cs else c :: doubleQuotesList cs

/-- `escapeCSVValue` on the character list of an already-stringified
value: wrap in double quotes, doubling embedded quotes, exactly when the
value contains a comma, quote or line terminator. -/
def escapeCSVStringList (l : List Char) : List Char :=
  if needsQuotingList l then '"' :: (doubleQuotesList l ++ ['"']) else l

/-- `escapeCSVValue` restricted to string input (the null/undefined guard
lives in `escapeCSVValueJS` below). -/
def escapeCSVString (s : String) : String :=
  String.mk (escapeCSVStringList s.data)

/-- Full `escapeCSVValue`: null renders as the empty string, everything
else is stringified then escaped. -/
def escapeCSVValueJS : JSValue → String
  | .vnull => ""
  | v => escapeCSVString (jsString v)

/-! ## A standard comma-format reader for one field.

Modelled from the spec: the repository writes CSV but contains no reader
for its own output; the round-trip claim compares the writer against a
standard comma-format field reader (a quoted field is stripped of its
outer quotes and embedded doubled quotes are collapsed; an unquoted
field is taken verbatim). -/

/-- Collapse doubled quotes `""` back to a single `"`. -/
def undoubleQuotesList : List Char → List Char
  | [] => []
  | '"' :: '"' :: cs => '"' :: undoubleQuotesList cs
  | c :: cs => c :: undoubleQuotesList cs

/-- Standard comma-format reading of one field (character-list form). -/
def csvReadFieldList : List Char → List Char
  | [] => []
  | c :: cs =>
    if c = '"' ∧ cs.getLast? = some '"' then undoubleQuotesList cs.dropLast
    else c :: cs

/-- Standard comma-format reading of one field. -/
def csvReadField (s : String) : String :=
  String.mk (csvReadFieldList s.data)

theorem undouble_double (l : List Char) :
    undoubleQuotesList (doubleQuotesList l) = l := by
  induction l with
  | nil => rfl
  | cons c cs ih =>
    by_cases h : c = '"'
    · subst h
      simp [doubleQuotesList, undoubleQuotesList, ih]
    · rw [doubleQuotesList, if_neg h]
      rw [show undoubleQuotesList (c :: doubleQuotesList cs)
            = c :: undoubleQuotesList (doubleQuotesList cs) from ?_, ih]
      cases hd : doubleQuotesList cs with
      | nil => simp [undoubleQuotesList]
      | cons d ds =>
        by_cases hcq : c = '"'
        · exact absurd hcq h
        · by_cases hdq : d = '"'
          · subst hdq
            conv_lhs => rw [undoubleQuotesList.eq_def]
            simp [h]
          · conv_lhs => rw [undoubleQuotesList.eq_def]
            simp [h]

theorem doubleQuotes_no_quote (l : List Char) (h : ('"' ∈ l) = False) :
    doubleQuotesList l = l := by
  induction l with
  | nil => rfl
  | cons c cs ih =>
    simp only [List.mem_cons, eq_iff_iff, iff_false, not_or] at h
    rw [doubleQuotesList, if_neg (fun hc => h.1 hc.symm),
      ih (by simp [h.2])]

theorem length_doubleQuotes (l : List Char) :
    l.length ≤ (doubleQuotesList l).length := by
  induction l with
  | nil => simp [doubleQuotesList]
  | cons c cs ih =>
    rw [doubleQuotesList]
    split
    · simpa using Nat.le_succ_of_le (Nat.succ_le_succ ih)
    · simpa using Nat.succ_le_succ ih

theorem csvRead_escape_list (l : List Char) :
    csvReadFieldList (escapeCSVStringList l) = l := by
  by_cases h : needsQuotingList l = true
  · rw [escapeCSVStringList, if_pos h, csvReadFieldList]
    rw [if_pos ?_, List.dropLast_concat, undouble_double]
    refine ⟨rfl, ?_⟩
    rw [List.getLast?_concat]
  · rw [escapeCSVStringList, if_neg h]
    cases l with
    | nil => rfl
    | cons c cs =>
      rw [csvReadFieldList, if_neg ?_]
      intro hc
      apply h
      simp only [needsQuotingList, List.any_cons, Bool.or_eq_true, List.any_eq_true]
      left
      simp [hc.1]

theorem escape_ne_self_of_quoting (l : List Char) (h : needsQuotingList l = true) :
    escapeCSVStringList l ≠ l := by
  intro heq
  have hlen := congrArg List.length heq
  rw [escapeCSVStringList, if_pos h] at hlen
  simp only [List.length_cons, List.length_append, List.length_singleton] at hlen
  have := length_doubleQuotes l
  omega

/-- The quoting trigger at the `String` level. -/
def needsQuoting (s : String) : Bool :=
  needsQuotingList s.data

theorem mk_data_eq (s : String) : String.mk s.data = s := by
  obtain ⟨d⟩ := s
  rfl

/-- C7: for every string value, the comma-format writer wraps the value
in double quotes and doubles embedded double quotes exactly when the
value contains a comma, a double quote, or a line terminator, so writing
followed by standard CSV field reading reproduces the original value; in
particular the value consisting of `He said "hi", then left` followed by
a newline round-trips unchanged. -/
theorem csv_escape_roundtrip :
    (∀ s : String, csvReadField (escapeCSVString s) = s ∧
      (escapeCSVString s = s ↔ needsQuoting s = false)) ∧
    csvReadField (escapeCSVString ("He said \"hi\", then left\n"))
      = "He said \"hi\", then left\n" := by
  have main : ∀ s : String, csvReadField (escapeCSVString s) = s ∧
      (escapeCSVString s = s ↔ needsQuoting s = false) := by
    intro s
    constructor
    · show String.mk (csvReadFieldList (String.mk (escapeCSVStringList s.data)).data) = s
      rw [show (String.mk (escapeCSVStringList s.data)).data
            = escapeCSVStringList s.data from rfl]
      rw [csvRead_escape_list, mk_data_eq]
    · constructor
      · intro heq
        by_contra hq
        rw [Bool.not_eq_false] at hq
        have hdata : escapeCSVStringList s.data = s.data := by
          have := congrArg String.data heq
          simpa [escapeCSVString] using this
        exact escape_ne_self_of_quoting s.data hq hdata
      · intro hq
        show String.mk (escapeCSVStringList s.data) = s
        rw [escapeCSVStringList, if_neg (by simpa [needsQuoting] using hq), mk_data_eq]
  exact ⟨main, (main _).1⟩

/-! ## XML and TSV escaping, JSON serialization -/

/-- `escapeXMLValue`: the five XML metacharacters are replaced by their
entities.  The source applies five sequential global `replace` passes
starting with `&`; since no later pass's target occurs in an earlier
pass's replacement text, this equals the character-wise map below. -/
def xmlEscapeChar : Char → String
  | '&' => "&amp;"
  | '<' => "&lt;"
  | '>' => "&gt;"
  | '"' => "&quot;"
  | '\'' => "&apos;"
  | c => String.mk [c]

/-- `escapeXMLValue` on a string. -/
def xmlEscape (s : String) : String :=
  String.join (s.data.map xmlEscapeChar)

/-- Full `escapeXMLValue` with the null guard. -/
def escapeXMLValueJS : JSValue → String
  | .vnull => ""
  | v => xmlEscape (jsString v)

/-- `escapeTSVValue`: backslash-escape literal tab, newline and carriage
return.  The source's three sequential `replace` passes equal this
character-wise map since the replacement texts contain none of the
targets. -/
def tsvEscapeChar : Char → String
  | '\t' => "\\t"
  | '\n' => "\\n"
  | '\r' => "\\r"
  | c => String.mk [c]

/-- `escapeTSVValue` on a string. -/
def tsvEscape (s : String) : String :=
  String.join (s.data.map tsvEscapeChar)

/-- Full `escapeTSVValue` with the null guard. -/
def escapeTSVValueJS : JSValue → String
  | .vnull => ""
  | v => tsvEscape (jsString v)

/-- `JSON.stringify` escaping of one character inside a string literal
(sufficient for the characters our claims exercise). -/
def jsonEscapeChar : Char → String
  | '"' => "\\\""
  | '\\' => "\\\\"
  | '\n' => "\\n"
  | '\r' => "\\r"
  | '\t' => "\\t"
  | c => String.mk [c]

/-- `JSON.stringify` of a string. -/
def jsonStr (s : String) : String :=
  "\"" ++ String.join (s.data.map jsonEscapeChar) ++ "\""

/-- `JSON.stringify` of one value. -/
def jsonVal : JSValue → String
  | .vstr s => jsonStr s
  | .vnum q => numToString q
  | .vbool b => if b then "true" else "false"
  | .vnull => "null"

/-- `JSON.stringify` of a row object (no added whitespace, insertion
order, as JavaScript does). -/
def jsonStringify (row : Row) : String :=
  "\x7b" ++ String.intercalate ","
    (row.map (fun kv => jsonStr kv.1 ++ ":" ++ jsonVal kv.2)) ++ "\x7d"

/-! ## JavaScript numeric parsing

Executable stand-ins for `Number(...)`, `parseFloat(...)` and
`parseInt(...)` on the decimal literals the program manipulates (no
exponents, hex or infinities; `none` plays the role of `NaN`). -/

/-- Digits of a numeral to a natural number. -/
def digitsToNat (l : List Char) : ℕ :=
  l.foldl (fun a c => a * 10 + (c.toNat - 48)) 0

/-- Leading-digit split. -/
def takeDigits (l : List Char) : List Char × List Char :=
  (l.takeWhile Char.isDigit, l.dropWhile Char.isDigit)

/-- `parseFloat` on the trimmed character list: longest numeric prefix
`[sign] digits [. digits]`; `none` when no digits are found (NaN). -/
def jsParseFloatList (l : List Char) : Option ℚ :=
  let core : List Char → Option ℚ := fun l =>
    let p := takeDigits l
    match p.2 with
    | '.' :: r2 =>
      let f := takeDigits r2
      if p.1 = [] ∧ f.1 = [] then none
      else some ((digitsToNat p.1 : ℚ) + (digitsToNat f.1 : ℚ) / 10 ^ f.1.length)
    | _ => if p.1 = [] then none else some (digitsToNat p.1 : ℚ)
  match l with
  | '-' :: r => (core r).map (fun q => -q)
  | '+' :: r => core r
  | _ => core l

/-- `parseFloat(s)`. -/
def jsParseFloat (s : String) : Option ℚ :=
  jsParseFloatList (trimList s.data)

/-- `parseInt(s)` (radix 10): longest prefix `[sign] digits`. -/
def jsParseIntList (l : List Char) : Option ℤ :=
  let core : List Char → Option ℤ := fun l =>
    let p := takeDigits l
    if p.1 = [] then none else some (digitsToNat p.1 : ℤ)
  match l with
  | '-' :: r => (core r).map (fun n => -n)
  | '+' :: r => core r
  | _ => core l

/-- `parseInt(s)`. -/
def jsParseInt (s : String) : Option ℤ :=
  jsParseIntList (trimList s.data)

/-- `Number(s)` on a string: empty/whitespace-only is `0`; otherwise the
whole trimmed string must be a decimal literal, else NaN (`none`). -/
def jsNumberOfString (s : String) : Option ℚ :=
  let l := trimList s.data
  if l = [] then some 0
  else
    let chk : List Char → Option ℚ := fun l =>
      let p := takeDigits l
      match p.2 with
      | '.' :: r2 =>
        let f := takeDigits r2
        if f.2 = [] ∧ ¬(p.1 = [] ∧ f.1 = []) then
          some ((digitsToNat p.1 : ℚ) + (digitsToNat f.1 : ℚ) / 10 ^ f.1.length)
        else none
      | [] => if p.1 = [] then none else some (digitsToNat p.1 : ℚ)
      | _ => none
    match l with
    | '-' :: r => (chk r).map (fun q => -q)
    | '+' :: r => chk r
    | _ => chk l

/-- `Number(value)` on a value. -/
def jsNumber : JSValue → Option ℚ
  | .vstr s => jsNumberOfString s
  | .vnum q => some q
  | .vbool b => some (if b then 1 else 0)
  | .vnull => some 0

/-- `Number(value)` on a possibly-undefined value
(`Number(undefined)` is NaN). -/
def jsNumberOpt : Option JSValue → Option ℚ
  | none => none
  | some v => jsNumber v

/-! ## Oracles for the JavaScript runtime facilities the claims never
depend on: `Date` parsing/formatting, regular expressions, email and URL
syntax checks. -/

/-- Oracle bundle for `Date`, email and URL facilities.  `dateISO` and
`datetimeISO` return `none` when `new Date(s).toISOString()` would throw
on an invalid date. -/
structure JSOracles where
  dateISO : String → Option String
  datetimeISO : String → Option String
  dateParseOk : String → Bool
  emailOk : String → Bool
  urlOk : String → Bool

/-- A concrete oracle instance used by closed witnesses. -/
def trivialOracles : JSOracles :=
  ⟨fun _ => none, fun _ => none, fun _ => false, fun _ => false, fun _ => false⟩

/-! ## Transformer variants (`src/transformers/index.js`) -/

/-- `ColumnFilter.transform`: with a non-empty include list, keep only
the included keys (in include order) that exist in the row; then delete
every excluded key.  Never drops the row. -/
def columnFilterTransform (includeColumns excludeColumns : List String) (row : Row) : Row :=
  let result := row
  let result :=
    if includeColumns.length > 0 then
      includeColumns.filterMap (fun col => (rowGet row col).map (fun v => (col, v)))
    else result
  let result :=
    if excludeColumns.length > 0 then
      result.filter (fun kv => !(excludeColumns.contains kv.1))
    else result
  result

/-- `ColumnFilter.getOutputHeaders`: the identical include/exclude logic
applied to the header list. -/
def columnFilterHeaders (includeColumns excludeColumns : List String)
    (inputHeaders : List String) : List String :=
  let outputHeaders := inputHeaders
  let outputHeaders :=
    if includeColumns.length > 0 then
      includeColumns.filter (fun col => inputHeaders.contains col)
    else outputHeaders
  let outputHeaders :=
    if excludeColumns.length > 0 then
      outputHeaders.filter (fun col => !(excludeColumns.contains col))
    else outputHeaders
  outputHeaders

/-- `DataTypeConverter.parseBoolean`. -/
def converterParseBoolean (v : JSValue) : Bool :=
  match v with
  | .vbool b => b
  | v => ["true", "1", "yes", "y", "on"].contains (jsTrim (jsToLower (jsString v)))

/-- One case of the `DataTypeConverter.transform` switch, applied to a
present non-null non-empty value.  An unrecognized kind leaves the value
unchanged (the switch has no default case), as does a date conversion
whose `toISOString` throws (caught and logged by the source). -/
def convertValue (O : JSOracles) (kind : String) (v : JSValue) : JSValue :=
  match jsToLower kind with
  | "number" | "float" => .vnum ((jsParseFloat (jsString v)).getD 0)
  | "integer" | "int" => .vnum (((jsParseInt (jsString v)).getD 0 : ℤ) : ℚ)
  | "boolean" | "bool" => .vbool (converterParseBoolean v)
  | "date" =>
    match O.dateISO (jsString v) with
    | some d => .vstr d
    | none => v
  | "datetime" =>
    match O.datetimeISO (jsString v) with
    | some d => .vstr d
    | none => v
  | "uppercase" => .vstr (jsToUpper (jsString v))
  | "lowercase" => .vstr (jsToLower (jsString v))
  | "trim" => .vstr (jsTrim (jsString v))
  | "string" => .vstr (jsString v)
  | _ => v

/-- `DataTypeConverter.transform`: each configured column whose current
value is neither undefined, null nor the empty string is coerced in
configuration order; the row itself is always returned (a failed
conversion never drops it). -/
def dataTypeConverterTransform (O : JSOracles) (conversions : List (String × String))
    (row : Row) : Row :=
  conversions.foldl
    (fun result p =>
      match rowGet result p.1 with
      | none => result
      | some .vnull => result
      | some (.vstr "") => result
      | some v => rowSet result p.1 (convertValue O p.2 v))
    row

/-- A `DataValidator` rule object.  Absent properties are `none`;
`minLength`/`maxLength` use `0` for absent, mirroring the source's
JavaScript truthiness guard (`rule.minLength && ...`), under which a
configured `0` behaves exactly like an absent rule.  The regular
expression of `pattern` is an oracle predicate on the stringified
value. -/
structure ValidationRule where
  required : Bool := false
  type : Option String := none
  minLength : ℕ := 0
  maxLength : ℕ := 0
  pattern : Option (String → Bool) := none
  min : Option ℚ := none
  max : Option ℚ := none
  enum : Option (List JSValue) := none

/-- `DataValidator.isEmpty`:
`value === null || value === undefined || String(value).trim() === ''`. -/
def isEmptyV : Option JSValue → Bool
  | none => true
  | some .vnull => true
  | some v => jsTrim (jsString v) = ""

/-- `DataValidator.validateType` (structural check; `date`, `email` and
`url` go through the oracles, unknown type names are valid). -/
def validateType (O : JSOracles) (value : Option JSValue) (t : String) : Bool :=
  match jsToLower t with
  | "number" | "float" => (jsNumberOpt value).isSome
  | "integer" | "int" =>
    match jsNumberOpt value with
    | some q => q.den = 1
    | none => false
  | "boolean" | "bool" =>
    ["true", "false", "1", "0", "yes", "no", "y", "n", "on", "off"].contains
      (jsToLower (jsStringOpt value))
  | "date" => O.dateParseOk (jsStringOpt value)
  | "email" => O.emailOk (jsStringOpt value)
  | "url" => O.urlOk (jsStringOpt value)
  | _ => true

/-- Whether one configured column's value violates its rule object: the
disjunction of the early-return conditions of `DataValidator.transform`,
in source order (required, type, minLength, maxLength, pattern, min,
max, enum). -/
def ruleViolated (O : JSOracles) (value : Option JSValue) (rule : ValidationRule) : Bool :=
  (rule.required && isEmptyV value) ||
  (match rule.type with
   | some t => !isEmptyV value && !validateType O value t
   | none => false) ||
  (rule.minLength != 0 && !isEmptyV value &&
    decide ((jsStringOpt value).length < rule.minLength)) ||
  (rule.maxLength != 0 && !isEmptyV value &&
    decide ((jsStringOpt value).length > rule.maxLength)) ||
  (match rule.pattern with
   | some p => !isEmptyV value && !p (jsStringOpt value)
   | none => false) ||
  (match rule.min with
   | some m => !isEmptyV value &&
     (match jsNumberOpt value with
      | some q => decide (q < m)
      | none => false)
   | none => false) ||
  (match rule.max with
   | some m => !isEmptyV value &&
     (match jsNumberOpt value with
      | some q => decide (q > m)
      | none => false)
   | none => false) ||
  (match rule.enum with
   | some l => !isEmptyV value &&
     !(match value with
       | some v => l.contains v
       | none => false)
   | none => false)

/-- `DataValidator.transform`: walk the configured columns in rule-map
iteration order, returning the dropped sentinel (`none`) at the first
violated rule and the row unchanged otherwise. -/
def dataValidatorTransform (O : JSOracles) (rules : List (String × ValidationRule))
    (row : Row) : Option Row :=
  match rules with
  | [] => some row
  | (col, rule) :: rest =>
    if ruleViolated O (rowGet row col) rule then none
    else dataValidatorTransform O rest row

/-! ## Transformation pipeline -/

/-- A pipeline stage: the `transform(row, headers)` contract plus the
optional header-mapping capability (`getOutputHeaders`), which only
`ColumnFilter` declares. -/
structure Transformer where
  transform : Row → List String → Option Row
  getOutputHeaders : Option (List String → List String) := none

/-- A `ColumnFilter` as a pipeline stage. -/
def columnFilterT (includeColumns excludeColumns : List String) : Transformer :=
  { transform := fun row _ => some (columnFilterTransform includeColumns excludeColumns row),
    getOutputHeaders := some (columnFilterHeaders includeColumns excludeColumns) }

/-- A `DataTypeConverter` as a pipeline stage. -/
def dataTypeConverterT (O : JSOracles) (conversions : List (String × String)) : Transformer :=
  { transform := fun row _ => some (dataTypeConverterTransform O conversions row) }

/-- A `DataValidator` as a pipeline stage. -/
def dataValidatorT (O : JSOracles) (rules : List (String × ValidationRule)) : Transformer :=
  { transform := fun row _ => dataValidatorTransform O rules row }

/-- The loop of `TransformationPipeline.transform`: apply each stage in
order, returning the dropped sentinel as soon as a stage drops. -/
def pipelineTransform : List Transformer → Row → List String → Option Row
  | [], row, _ => some row
  | t :: ts, row, headers =>
    match t.transform row headers with
    | none => none
    | some r => pipelineTransform ts r headers

/-- `TransformationPipeline.transform` including the optional Aggregator
tap.  The Aggregator's state is modelled by the sequence of rows it has
observed (its statistics are a pure function of that sequence); `none`
means aggregation is disabled. -/
def pipelineTransformFull (ts : List Transformer) (agg : Option (List Row))
    (row : Row) (headers : List String) : Option Row × Option (List Row) :=
  match pipelineTransform ts row headers with
  | none => (none, agg)
  | some r => (some r, agg.map (fun l => l ++ [r]))

/-- Instrumented pipeline loop that additionally counts how many stages
were invoked, to express the short-circuit property. -/
def pipelineRunCount : List Transformer → Row → List String → Option Row × ℕ
  | [], row, _ => (some row, 0)
  | t :: ts, row, headers =>
    match t.transform row headers with
    | none => (none, 1)
    | some r =>
      let p := pipelineRunCount ts r headers
      (p.1, p.2 + 1)

/-- `TransformationPipeline.getOutputHeaders`: fold the header-mapping
capability of each stage, in pipeline order, over the input headers. -/
def pipelineGetOutputHeaders (ts : List Transformer) (inputHeaders : List String) :
    List String :=
  ts.foldl
    (fun headers t =>
      match t.getOutputHeaders with
      | some f => f headers
      | none => headers)
    inputHeaders

/-! ## Configuration (`CSVParser` constructor, `initializeTransformations`) -/

/-- The `transformations` configuration object. -/
structure Transformations where
  includeColumns : Option (List String) := none
  excludeColumns : Option (List String) := none
  typeConversions : Option (List (String × String)) := none
  validation : Option (List (String × ValidationRule)) := none

/-- JavaScript `x || default` on an optional number (absent and `0` are
falsy and fall back to the default; negative values are truthy and are
kept). -/
def jsOrInt (x : Option ℤ) (d : ℤ) : ℤ :=
  match x with
  | some n => if n = 0 then d else n
  | none => d

/-- JavaScript `x || default` on an optional string (absent and the
empty string fall back to the default). -/
def jsOrStr (x : Option String) (d : String) : String :=
  match x with
  | some s => if s = "" then d else s
  | none => d

/-- The options object handed to the `CSVParser` constructor (only the
fields the core reads). -/
structure CSVParserOptions where
  maxRowsPerFile : Option ℤ := none
  processCount : Option ℤ := none
  outputFormat : Option String := none
  transformations : Option Transformations := none
  generateStats : Bool := false

/-- The parser configuration after constructor defaulting
(`options.maxRowsPerFile || 100000`, `options.processCount || 4`,
`options.outputFormat || 'csv'`, ...). -/
structure Config where
  maxRowsPerFile : ℤ
  processCount : ℤ
  outputFormat : String
  transformations : Option Transformations
  generateStats : Bool

/-- The `CSVParser` constructor's defaulting of the core options. -/
def csvParserInit (options : CSVParserOptions) : Config :=
  { maxRowsPerFile := jsOrInt options.maxRowsPerFile 100000
    processCount := jsOrInt options.processCount 4
    outputFormat := jsOrStr options.outputFormat "csv"
    transformations := options.transformations
    generateStats := options.generateStats }

/-- `initializeTransformations`: with no `transformations` object there
is no pipeline at all; otherwise the pipeline holds, in order, an
optional `ColumnFilter`, an optional `DataTypeConverter` and an optional
`DataValidator`, and aggregation is enabled when `generateStats` is
set. -/
def initializeTransformations (O : JSOracles) (cfg : Config) :
    Option (List Transformer × Bool) :=
  match cfg.transformations with
  | none => none
  | some t =>
    some
      ((if t.includeColumns.isSome || t.excludeColumns.isSome then
          [columnFilterT (t.includeColumns.getD []) (t.excludeColumns.getD [])]
        else []) ++
       (match t.typeConversions with
        | some conv => [dataTypeConverterT O conv]
        | none => []) ++
       (match t.validation with
        | some rules => [dataValidatorT O rules]
        | none => []),
       cfg.generateStats)

/-! ## Synchronous format writers (`writeHeaderSync`, `writeRowSync`,
`writeFooterSync` in `csvparser.js`).

Each is modelled as the string of bytes it appends to the current output
stream.  Note the if-chains recognize only `csv`, `json`, `jsonl`, `xml`
and `tsv`; any other format (in particular `parquet`) writes nothing. -/

/-- `writeHeaderSync` as the bytes written for one header call. -/
def writeHeaderSync (fmt : String) (outputHeaders : List String) : String :=
  if fmt = "csv" then String.intercalate "," outputHeaders ++ "\n"
  else if fmt = "json" || fmt = "jsonl" then ""
  else if fmt = "xml" then "<?xml version=\"1.0\" encoding=\"UTF-8\"?>\n<data>\n"
  else if fmt = "tsv" then String.intercalate "\t" outputHeaders ++ "\n"
  else ""

/-- The substitution `row[header] || ''` performed by `writeRowSync` on
every field before escaping: a falsy value becomes the empty string. -/
def jsOrEmpty (v : Option JSValue) : JSValue :=
  match v with
  | none => .vstr ""
  | some v => if jsFalsy v then .vstr "" else v

/-- `writeRowSync` as the bytes written for one row. -/
def writeRowSync (fmt : String) (outputHeaders : List String) (row : Row) : String :=
  if fmt = "csv" then
    String.intercalate ","
      (outputHeaders.map (fun h => escapeCSVValueJS (jsOrEmpty (rowGet row h)))) ++ "\n"
  else if fmt = "json" || fmt = "jsonl" then jsonStringify row ++ "\n"
  else if fmt = "xml" then
    "  <row>\n" ++
    String.join
      (outputHeaders.map (fun h =>
        "    <" ++ h ++ ">" ++ escapeXMLValueJS (jsOrEmpty (rowGet row h)) ++
        "</" ++ h ++ ">\n")) ++
    "  </row>\n"
  else if fmt = "tsv" then
    String.intercalate "\t"
      (outputHeaders.map (fun h => escapeTSVValueJS (jsOrEmpty (rowGet row h)))) ++ "\n"
  else ""

/-- `writeFooterSync` as the bytes written when a file is finalized. -/
def writeFooterSync (fmt : String) : String :=
  if fmt = "xml" then "</data>\n" else ""

/-! ## Sequential split engine (`processSingleThread`) -/

/-- One output file: the bytes written to it and its record count. -/
structure OutFile where
  content : String
  records : ℕ
deriving DecidableEq

/-- Engine state during streaming: finalized files, the open file, the
`currentFileIndex` counter and the run-wide `totalRowsProcessed`
counter.  The open file's `records` field is `currentRowCount`. -/
structure EngineState where
  finished : List OutFile
  current : OutFile
  fileIndex : ℕ
  totalRows : ℕ

/-- The fresh file opened by `createNewOutputStreamSync`: headers are
written only when the output header list is non-empty, and the row
counter is reset. -/
def newFile (fmt : String) (outputHeaders : List String) : OutFile :=
  { content := if outputHeaders.length > 0 then writeHeaderSync fmt outputHeaders else ""
    records := 0 }

/-- Finalizing a file: `writeFooterSync` then close. -/
def closeFile (fmt : String) (f : OutFile) : OutFile :=
  { f with content := f.content ++ writeFooterSync fmt }

/-- The rotation step of `createNewOutputStreamSync` when a stream is
already open: finalize the current file and open the next one,
incrementing the file index. -/
def rotateFile (fmt : String) (outputHeaders : List String) (st : EngineState) :
    EngineState :=
  { finished := st.finished ++ [closeFile fmt st.current]
    current := newFile fmt outputHeaders
    fileIndex := st.fileIndex + 1
    totalRows := st.totalRows }

/-- The row the engine will write, if any: the pipeline's result when a
pipeline is configured, otherwise the row itself. -/
def engineTransform (pipe : Option (List Transformer × Bool)) (headers : List String)
    (row : Row) : Option Row :=
  match pipe with
  | none => some row
  | some p => pipelineTransform p.1 row headers

/-- The per-row body of `processSingleThread`'s data handler: dropped
rows are skipped; otherwise the row is written, both counters are
incremented, and the file is rotated once `currentRowCount` reaches
`maxRowsPerFile`. -/
def stepRow (cfg : Config) (pipe : Option (List Transformer × Bool))
    (headers outputHeaders : List String) (st : EngineState) (row : Row) : EngineState :=
  match engineTransform pipe headers row with
  | none => st
  | some r =>
    let st1 : EngineState :=
      { st with
        current :=
          { content := st.current.content ++ writeRowSync cfg.outputFormat outputHeaders r
            records := st.current.records + 1 }
        totalRows := st.totalRows + 1 }
    if (st1.current.records : ℤ) ≥ cfg.maxRowsPerFile then
      rotateFile cfg.outputFormat outputHeaders st1
    else st1

/-- The result `processSingleThread` leaves behind: the finalized output
files in creation order, the run-wide row counter and the final value of
`currentFileIndex`. -/
structure RunResult where
  files : List OutFile
  totalRows : ℕ
  fileIndexEnd : ℕ
deriving DecidableEq

/-- The output header list computed once by `detectHeaders`: the
pipeline's header mapping when a pipeline is configured, the detected
headers otherwise. -/
def engineOutputHeaders (O : JSOracles) (cfg : Config) (headers : List String) :
    List String :=
  match initializeTransformations O cfg with
  | some p => pipelineGetOutputHeaders p.1 headers
  | none => headers

/-- The engine state right after the initial `createNewOutputStreamSync`
call: output file number 1 is open (header written), `currentFileIndex`
has been bumped to 2. -/
def engineInit (O : JSOracles) (cfg : Config) (headers : List String) : EngineState :=
  { finished := []
    current := newFile cfg.outputFormat (engineOutputHeaders O cfg headers)
    fileIndex := 2
    totalRows := 0 }

/-- The engine state after streaming all data rows. -/
def engineFold (O : JSOracles) (cfg : Config) (headers : List String)
    (rows : List Row) : EngineState :=
  rows.foldl
    (stepRow cfg (initializeTransformations O cfg) headers
      (engineOutputHeaders O cfg headers))
    (engineInit O cfg headers)

/-- `processSingleThread` over the parsed data rows: open output file
number 1, stream every row through the per-row handler, and finalize the
last open file at end-of-input. -/
def processSingleThread (O : JSOracles) (cfg : Config) (headers : List String)
    (rows : List Row) : RunResult :=
  { files := (engineFold O cfg headers rows).finished ++
      [closeFile cfg.outputFormat (engineFold O cfg headers rows).current]
    totalRows := (engineFold O cfg headers rows).totalRows
    fileIndexEnd := (engineFold O cfg headers rows).fileIndex }

/-- The number of rows the pipeline drops on a given input. -/
def droppedCount (O : JSOracles) (cfg : Config) (headers : List String)
    (rows : List Row) : ℕ :=
  (rows.filter
    (fun row =>
      (engineTransform (initializeTransformations O cfg) headers row).isNone)).length

/-! ## Engine invariants -/

/-- The combined record count of an engine state: finalized files plus
the open file. -/
def sumRec (st : EngineState) : ℕ :=
  (st.finished.map OutFile.records).sum + st.current.records

theorem closeFile_records (fmt : String) (f : OutFile) :
    (closeFile fmt f).records = f.records := rfl

theorem stepRow_totalRows (cfg : Config) (pipe : Option (List Transformer × Bool))
    (hs ohs : List String) (st : EngineState) (row : Row) :
    (stepRow cfg pipe hs ohs st row).totalRows
      = st.totalRows + (if (engineTransform pipe hs row).isSome then 1 else 0) := by
  unfold stepRow
  cases h : engineTransform pipe hs row with
  | none => simp
  | some r =>
    simp only [Option.isSome_some, if_true]
    split
    · simp [rotateFile]
    · simp

theorem stepRow_sumRec (cfg : Config) (pipe : Option (List Transformer × Bool))
    (hs ohs : List String) (st : EngineState) (row : Row) :
    sumRec (stepRow cfg pipe hs ohs st row)
      = sumRec st + (if (engineTransform pipe hs row).isSome then 1 else 0) := by
  unfold stepRow
  cases h : engineTransform pipe hs row with
  | none => simp
  | some r =>
    simp only [Option.isSome_some, if_true]
    split
    · simp [rotateFile, sumRec, closeFile, newFile]
      omega
    · simp [sumRec]
      omega

theorem foldl_totalRows (cfg : Config) (pipe : Option (List Transformer × Bool))
    (hs ohs : List String) (rows : List Row) (st : EngineState) :
    (rows.foldl (stepRow cfg pipe hs ohs) st).totalRows
      = st.totalRows + rows.countP (fun row => (engineTransform pipe hs row).isSome) := by
  induction rows generalizing st with
  | nil => simp
  | cons row rest ih =>
    rw [List.foldl_cons, ih, stepRow_totalRows, List.countP_cons]
    by_cases h : (engineTransform pipe hs row).isSome = true <;> simp [h] <;> omega

theorem foldl_sumRec (cfg : Config) (pipe : Option (List Transformer × Bool))
    (hs ohs : List String) (rows : List Row) (st : EngineState) :
    sumRec (rows.foldl (stepRow cfg pipe hs ohs) st)
      = sumRec st + rows.countP (fun row => (engineTransform pipe hs row).isSome) := by
  induction rows generalizing st with
  | nil => simp
  | cons row rest ih =>
    rw [List.foldl_cons, ih, stepRow_sumRec, List.countP_cons]
    by_cases h : (engineTransform pipe hs row).isSome = true <;> simp [h] <;> omega

theorem stepRow_inv (cfg : Config) (pipe : Option (List Transformer × Bool))
    (hs ohs : List String) (hmax : 1 ≤ cfg.maxRowsPerFile) (st : EngineState)
    (row : Row)
    (hfin : ∀ f ∈ st.finished, (f.records : ℤ) = cfg.maxRowsPerFile)
    (hcur : (st.current.records : ℤ) < cfg.maxRowsPerFile) :
    (∀ f ∈ (stepRow cfg pipe hs ohs st row).finished,
        (f.records : ℤ) = cfg.maxRowsPerFile) ∧
      ((stepRow cfg pipe hs ohs st row).current.records : ℤ) < cfg.maxRowsPerFile := by
  unfold stepRow
  cases h : engineTransform pipe hs row with
  | none => exact ⟨hfin, hcur⟩
  | some r =>
    simp only
    split
    · rename_i hfull
      constructor
      · intro f hf
        simp only [rotateFile, List.mem_append, List.mem_singleton] at hf
        rcases hf with hf | hf
        · exact hfin f hf
        · subst hf
          rw [closeFile_records]
          simp only at hfull ⊢
          push_cast at hfull ⊢
          omega
      · simpa [rotateFile, newFile] using hmax
    · rename_i hfull
      refine ⟨hfin, ?_⟩
      simp only at hfull ⊢
      push_cast at hfull ⊢
      omega

theorem foldl_inv (cfg : Config) (pipe : Option (List Transformer × Bool))
    (hs ohs : List String) (hmax : 1 ≤ cfg.maxRowsPerFile) (rows : List Row)
    (st : EngineState)
    (hfin : ∀ f ∈ st.finished, (f.records : ℤ) = cfg.maxRowsPerFile)
    (hcur : (st.current.records : ℤ) < cfg.maxRowsPerFile) :
    (∀ f ∈ (rows.foldl (stepRow cfg pipe hs ohs) st).finished,
        (f.records : ℤ) = cfg.maxRowsPerFile) ∧
      ((rows.foldl (stepRow cfg pipe hs ohs) st).current.records : ℤ)
        < cfg.maxRowsPerFile := by
  induction rows generalizing st with
  | nil => exact ⟨hfin, hcur⟩
  | cons row rest ih =>
    rw [List.foldl_cons]
    have h := stepRow_inv cfg pipe hs ohs hmax st row hfin hcur
    exact ih _ h.1 h.2

theorem countP_not_add (p : Row → Bool) (rows : List Row) :
    rows.countP p + rows.countP (fun r => !p r) = rows.length := by
  induction rows with
  | nil => simp
  | cons r rest ih =>
    rw [List.countP_cons, List.countP_cons]
    by_cases h : p r = true <;> simp [h] <;> omega

/-- A pipeline all of whose stages always return a row never drops. -/
theorem pipelineTransform_total (ts : List Transformer)
    (h : ∀ t ∈ ts, ∀ row hs, (t.transform row hs).isSome = true) :
    ∀ (row : Row) (hs : List String), (pipelineTransform ts row hs).isSome = true := by
  induction ts with
  | nil => intro row hs; rfl
  | cons t rest ih =>
    intro row hs
    rw [pipelineTransform]
    have h1 := h t (List.mem_cons_self t rest) row hs
    cases ht : t.transform row hs with
    | none => rw [ht] at h1; exact absurd h1 (by simp)
    | some r =>
      exact ih (fun u hu => h u (List.mem_cons_of_mem t hu)) r hs

/-- Whether no `DataValidator` is configured. -/
def noValidator (cfg : Config) : Bool :=
  match cfg.transformations with
  | none => true
  | some t => t.validation.isNone

theorem noValidator_isSome (O : JSOracles) (cfg : Config) (hs : List String)
    (row : Row) (h : noValidator cfg = true) :
    (engineTransform (initializeTransformations O cfg) hs row).isSome = true := by
  unfold engineTransform initializeTransformations
  cases htr : cfg.transformations with
  | none => rfl
  | some t =>
    simp only
    have hv : t.validation = none := by
      rw [noValidator, htr] at h
      exact Option.isNone_iff_eq_none.mp h
    rw [hv]
    apply pipelineTransform_total
    intro u hu row' hs'
    simp only [List.append_nil, List.mem_append] at hu
    rcases hu with hu | hu
    · split at hu
      · rw [List.mem_singleton] at hu
        subst hu
        rfl
      · exact absurd hu (List.not_mem_nil u)
    · split at hu
      · rw [List.mem_singleton] at hu
        subst hu
        rfl
      · exact absurd hu (List.not_mem_nil u)

/-- The record counts of the files produced when `n` further kept rows
arrive while the open file already holds `c` records: the closed form of
the engine's rotation policy. -/
def countsAux (maxRows : ℤ) : ℕ → ℕ → List ℕ
  | 0, c => [c]
  | n + 1, c =>
    if (c + 1 : ℤ) ≥ maxRows then (c + 1) :: countsAux maxRows n 0
    else countsAux maxRows n (c + 1)

theorem foldl_counts (cfg : Config) (pipe : Option (List Transformer × Bool))
    (hs ohs : List String) (rows : List Row) (st : EngineState)
    (hkeep : ∀ row ∈ rows, (engineTransform pipe hs row).isSome = true) :
    ((rows.foldl (stepRow cfg pipe hs ohs) st).finished.map OutFile.records)
        ++ [(rows.foldl (stepRow cfg pipe hs ohs) st).current.records]
      = st.finished.map OutFile.records
          ++ countsAux cfg.maxRowsPerFile rows.length st.current.records := by
  induction rows generalizing st with
  | nil => simp [countsAux]
  | cons row rest ih =>
    rw [List.foldl_cons, ih _ (fun u hu => hkeep u (List.mem_cons_of_mem row hu))]
    have hk := hkeep row (List.mem_cons_self row rest)
    rw [List.length_cons, countsAux]
    unfold stepRow
    cases h : engineTransform pipe hs row with
    | none => rw [h] at hk; exact absurd hk (by simp)
    | some r =>
      simp only
      split
      · rename_i hfull
        rw [if_pos (by exact_mod_cast hfull)]
        simp [rotateFile, closeFile_records, newFile]
      · rename_i hfull
        rw [if_neg (by exact_mod_cast hfull)]

/-- When no row is dropped, the per-file record counts of a sequential
run are exactly the closed form `countsAux`. -/
theorem processSingleThread_counts (O : JSOracles) (cfg : Config)
    (headers : List String) (rows : List Row)
    (hkeep : ∀ row ∈ rows,
      (engineTransform (initializeTransformations O cfg) headers row).isSome = true) :
    (processSingleThread O cfg headers rows).files.map OutFile.records
      = countsAux cfg.maxRowsPerFile rows.length 0 := by
  show (((engineFold O cfg headers rows).finished ++
      [closeFile cfg.outputFormat (engineFold O cfg headers rows).current]).map
        OutFile.records) = _
  rw [List.map_append]
  have h := foldl_counts cfg (initializeTransformations O cfg) headers
    (engineOutputHeaders O cfg headers) rows (engineInit O cfg headers) hkeep
  rw [engineFold]
  simp only [List.map_cons, List.map_nil, closeFile_records]
  rw [h]
  simp [engineInit, newFile]

/-- C2: for every sequential-mode run, the total number of rows written
equals the total number of rows read minus the rows dropped by the
transformation pipeline; the sum of the per-file record counts equals
the rows written; and for every input with no Validator configured, rows
written equals rows read. -/
theorem sequential_row_conservation (O : JSOracles) (cfg : Config)
    (headers : List String) (rows : List Row) :
    (processSingleThread O cfg headers rows).totalRows
        = rows.length - droppedCount O cfg headers rows ∧
    (processSingleThread O cfg headers rows).totalRows
        + droppedCount O cfg headers rows = rows.length ∧
    ((processSingleThread O cfg headers rows).files.map OutFile.records).sum
        = (processSingleThread O cfg headers rows).totalRows ∧
    (noValidator cfg = true →
      (processSingleThread O cfg headers rows).totalRows = rows.length) := by
  have hlen :
      rows.countP
          (fun row =>
            (engineTransform (initializeTransformations O cfg) headers row).isSome)
        + droppedCount O cfg headers rows = rows.length := by
    rw [droppedCount, ← List.countP_eq_length_filter]
    have := countP_not_add
      (fun row =>
        (engineTransform (initializeTransformations O cfg) headers row).isSome) rows
    rw [← this]
    congr 1
    apply List.countP_congr
    intro row _
    cases engineTransform (initializeTransformations O cfg) headers row <;>
      simp [Option.isNone]
  have htot :
      (processSingleThread O cfg headers rows).totalRows
        = rows.countP
            (fun row =>
              (engineTransform (initializeTransformations O cfg) headers row).isSome) := by
    show (engineFold O cfg headers rows).totalRows = _
    rw [engineFold, foldl_totalRows]
    simp [engineInit]
  have hkey : sumRec (engineFold O cfg headers rows)
      = (engineFold O cfg headers rows).totalRows := by
    rw [engineFold, foldl_sumRec, foldl_totalRows]
    simp [sumRec, engineInit, newFile]
  have hsum :
      ((processSingleThread O cfg headers rows).files.map OutFile.records).sum
        = (processSingleThread O cfg headers rows).totalRows := by
    show ((((engineFold O cfg headers rows).finished ++
        [closeFile cfg.outputFormat (engineFold O cfg headers rows).current]).map
          OutFile.records).sum) = (engineFold O cfg headers rows).totalRows
    rw [List.map_append, List.sum_append]
    rw [sumRec] at hkey
    simpa [closeFile_records] using hkey
  refine ⟨?_, ?_, hsum, ?_⟩
  · omega
  · omega
  · intro hnv
    rw [htot, ← hlen]
    have hdrop : droppedCount O cfg headers rows = 0 := by
      rw [droppedCount, List.length_eq_zero, List.filter_eq_nil_iff]
      intro row _
      have := noValidator_isSome O cfg headers row hnv
      cases h : engineTransform (initializeTransformations O cfg) headers row with
      | none => rw [h] at this; exact absurd this (by simp)
      | some r => simp [Option.isNone]
    omega

/-- The configuration of the 250-row rotation scenario:
`maxRowsPerFile = 100`, everything else defaulted. -/
def cfgRows100 : Config :=
  csvParserInit { maxRowsPerFile := some 100 }

/-- A one-column sample data row. -/
def rowX : Row := [("id", JSValue.vstr "x")]

set_option maxRecDepth 4000 in
/-- C3: for every sequential-mode run (with a positive row threshold),
every output file except the last contains exactly `maxRowsPerFile`
records; in particular 250 input rows with `maxRowsPerFile = 100`
produce exactly 3 output files with record counts 100, 100, 50. -/
theorem sequential_file_rotation :
    (∀ (O : JSOracles) (cfg : Config) (headers : List String) (rows : List Row),
        1 ≤ cfg.maxRowsPerFile →
        ∀ f ∈ (processSingleThread O cfg headers rows).files.dropLast,
          (f.records : ℤ) = cfg.maxRowsPerFile) ∧
    (processSingleThread trivialOracles cfgRows100 ["id"]
        (List.replicate 250 rowX)).files.map OutFile.records = [100, 100, 50] ∧
    (processSingleThread trivialOracles cfgRows100 ["id"]
        (List.replicate 250 rowX)).files.length = 3 := by
  have hscen :
      (processSingleThread trivialOracles cfgRows100 ["id"]
        (List.replicate 250 rowX)).files.map OutFile.records = [100, 100, 50] := by
    rw [processSingleThread_counts]
    · decide
    · intro row _
      rfl
  refine ⟨?_, hscen, ?_⟩
  · intro O cfg headers rows hmax f hf
    have hinv := foldl_inv cfg (initializeTransformations O cfg) headers
      (engineOutputHeaders O cfg headers) hmax rows (engineInit O cfg headers)
      (by simp [engineInit]) (by simp [engineInit, newFile]; omega)
    have hdl : (processSingleThread O cfg headers rows).files.dropLast
        = (engineFold O cfg headers rows).finished := by
      show ((engineFold O cfg headers rows).finished ++
        [closeFile cfg.outputFormat (engineFold O cfg headers rows).current]).dropLast = _
      rw [List.dropLast_concat]
    rw [hdl] at hf
    exact hinv.1 f hf
  · have := congrArg List.length hscen
    simpa using this

/-- Closed instantiation of `sequential_file_rotation`: the 2-row run
with `maxRowsPerFile = 1` has every non-last file holding exactly one
record. -/
theorem sequential_file_rotation_witness :
    (1 : ℤ) ≤ (csvParserInit { maxRowsPerFile := some 1 }).maxRowsPerFile ∧
    ∀ f ∈ (processSingleThread trivialOracles
        (csvParserInit { maxRowsPerFile := some 1 }) ["id"] [rowX, rowX]).files.dropLast,
      (f.records : ℤ) = (csvParserInit { maxRowsPerFile := some 1 }).maxRowsPerFile :=
  ⟨by decide,
    sequential_file_rotation.1 trivialOracles
      (csvParserInit { maxRowsPerFile := some 1 }) ["id"] [rowX, rowX] (by decide)⟩

/-- Closed instantiation of `sequential_row_conservation`: two rows, no
validator, default configuration — both rows are written and the single
output file holds both records. -/
theorem sequential_row_conservation_witness :
    noValidator (csvParserInit {}) = true ∧
    (processSingleThread trivialOracles (csvParserInit {}) ["id"]
        [[("id", JSValue.vstr "1")], [("id", JSValue.vstr "2")]]).totalRows = 2 := by
  refine ⟨rfl, ?_⟩
  have h := sequential_row_conservation trivialOracles (csvParserInit {}) ["id"]
    [[("id", JSValue.vstr "1")], [("id", JSValue.vstr "2")]]
  rw [h.2.2.2 rfl]
  rfl

/-- C9: in the delimited-text formats, every JavaScript-falsy field
value — the number 0, `false`, `null`, `undefined`, or the empty
string — is rendered as the empty string, because `writeRowSync`
substitutes `row[header] || ''` before escaping; in particular a field
holding the number 0 is written as an empty field, not as "0". -/
theorem falsy_field_rendered_empty :
    (∀ v : Option JSValue, jsFalsyOpt v = true →
        escapeCSVValueJS (jsOrEmpty v) = "" ∧ escapeTSVValueJS (jsOrEmpty v) = "") ∧
    writeRowSync "csv" ["n"] [("n", JSValue.vnum 0)] = "\n" ∧
    writeRowSync "tsv" ["n"] [("n", JSValue.vnum 0)] = "\n" := by
  refine ⟨?_, by decide, by decide⟩
  intro v hv
  have h0 : jsOrEmpty v = .vstr "" := by
    cases v with
    | none => rfl
    | some w =>
      rw [jsOrEmpty, if_pos]
      simpa [jsFalsyOpt] using hv
  rw [h0]
  exact ⟨rfl, rfl⟩

/-- Closed instantiation of `falsy_field_rendered_empty` at the number
0 (produced, e.g., by the TypeConverter). -/
theorem falsy_field_rendered_empty_witness :
    jsFalsyOpt (some (JSValue.vnum 0)) = true ∧
    escapeCSVValueJS (jsOrEmpty (some (JSValue.vnum 0))) = "" :=
  ⟨by decide, (falsy_field_rendered_empty.1 (some (JSValue.vnum 0)) (by decide)).1⟩

/-! ## The columnar-surrogate ("parquet") format writes nothing through
the synchronous writers. -/

theorem writeHeaderSync_parquet (hs : List String) :
    writeHeaderSync "parquet" hs = "" := by
  simp [writeHeaderSync]

theorem writeRowSync_parquet (hs : List String) (row : Row) :
    writeRowSync "parquet" hs row = "" := by
  simp [writeRowSync]

theorem writeFooterSync_parquet : writeFooterSync "parquet" = "" := by
  simp [writeFooterSync]

theorem foldl_parquet_content (cfg : Config) (pipe : Option (List Transformer × Bool))
    (hs ohs : List String) (hfmt : cfg.outputFormat = "parquet") (rows : List Row)
    (st : EngineState)
    (hfin : ∀ f ∈ st.finished, f.content = "")
    (hcur : st.current.content = "") :
    (∀ f ∈ (rows.foldl (stepRow cfg pipe hs ohs) st).finished, f.content = "") ∧
      (rows.foldl (stepRow cfg pipe hs ohs) st).current.content = "" := by
  induction rows generalizing st with
  | nil => exact ⟨hfin, hcur⟩
  | cons row rest ih =>
    rw [List.foldl_cons]
    apply ih
    · unfold stepRow
      cases h : engineTransform pipe hs row with
      | none => exact hfin
      | some r =>
        simp only
        split
        · intro f hf
          simp only [rotateFile, List.mem_append, List.mem_singleton] at hf
          rcases hf with hf | hf
          · exact hfin f hf
          · subst hf
            simp [closeFile, hfmt, writeFooterSync_parquet, hcur,
              writeRowSync_parquet]
        · exact hfin
    · unfold stepRow
      cases h : engineTransform pipe hs row with
      | none => exact hcur
      | some r =>
        simp only
        split
        · simp [rotateFile, newFile, hfmt, writeHeaderSync_parquet]
        · simp [hcur, hfmt, writeRowSync_parquet]

theorem stepRow_records_pair (cfg1 cfg2 : Config)
    (pipe : Option (List Transformer × Bool)) (hs ohs1 ohs2 : List String)
    (st1 st2 : EngineState) (row : Row)
    (hmax : cfg1.maxRowsPerFile = cfg2.maxRowsPerFile)
    (hfin : st1.finished.map OutFile.records = st2.finished.map OutFile.records)
    (hcur : st1.current.records = st2.current.records) :
    ((stepRow cfg1 pipe hs ohs1 st1 row).finished.map OutFile.records
        = (stepRow cfg2 pipe hs ohs2 st2 row).finished.map OutFile.records) ∧
      (stepRow cfg1 pipe hs ohs1 st1 row).current.records
        = (stepRow cfg2 pipe hs ohs2 st2 row).current.records := by
  unfold stepRow
  cases h : engineTransform pipe hs row with
  | none => exact ⟨hfin, hcur⟩
  | some r =>
    simp only
    rw [hcur, hmax]
    split
    · constructor
      · simp [rotateFile, closeFile_records, hfin, hcur]
      · simp [rotateFile, newFile]
    · exact ⟨hfin, by simp [hcur]⟩

theorem foldl_records_pair (cfg1 cfg2 : Config)
    (pipe : Option (List Transformer × Bool)) (hs ohs1 ohs2 : List String)
    (rows : List Row) (st1 st2 : EngineState)
    (hmax : cfg1.maxRowsPerFile = cfg2.maxRowsPerFile)
    (hfin : st1.finished.map OutFile.records = st2.finished.map OutFile.records)
    (hcur : st1.current.records = st2.current.records) :
    ((rows.foldl (stepRow cfg1 pipe hs ohs1) st1).finished.map OutFile.records
        = (rows.foldl (stepRow cfg2 pipe hs ohs2) st2).finished.map OutFile.records) ∧
      (rows.foldl (stepRow cfg1 pipe hs ohs1) st1).current.records
        = (rows.foldl (stepRow cfg2 pipe hs ohs2) st2).current.records := by
  induction rows generalizing st1 st2 with
  | nil => exact ⟨hfin, hcur⟩
  | cons row rest ih =>
    rw [List.foldl_cons, List.foldl_cons]
    have h := stepRow_records_pair cfg1 cfg2 pipe hs ohs1 ohs2 st1 st2 row hmax hfin hcur
    exact ih _ _ h.1 h.2

/-- C10: a sequential run with the columnar-surrogate ("parquet")
format creates and rotates output files exactly as any other format
would — the per-file record counts match those of the same run in CSV
format — but writes no header, row or footer bytes to any of them
(`writeHeaderSync`/`writeRowSync`/`writeFooterSync` have no branch for
this format), while `totalRowsProcessed` still counts every non-dropped
row. -/
theorem parquet_run_writes_no_bytes (O : JSOracles) (cfg : Config)
    (headers : List String) (rows : List Row) (hfmt : cfg.outputFormat = "parquet") :
    (∀ hs, writeHeaderSync cfg.outputFormat hs = "") ∧
    (∀ hs row, writeRowSync cfg.outputFormat hs row = "") ∧
    writeFooterSync cfg.outputFormat = "" ∧
    (∀ f ∈ (processSingleThread O cfg headers rows).files, f.content = "") ∧
    (processSingleThread O cfg headers rows).files.map OutFile.records
      = (processSingleThread O { cfg with outputFormat := "csv" }
          headers rows).files.map OutFile.records ∧
    (processSingleThread O cfg headers rows).totalRows
        + droppedCount O cfg headers rows = rows.length := by
  refine ⟨fun hs => by rw [hfmt]; exact writeHeaderSync_parquet hs,
    fun hs row => by rw [hfmt]; exact writeRowSync_parquet hs row,
    by rw [hfmt]; exact writeFooterSync_parquet, ?_, ?_, ?_⟩
  · intro f hf
    have h := foldl_parquet_content cfg (initializeTransformations O cfg) headers
      (engineOutputHeaders O cfg headers) hfmt rows (engineInit O cfg headers)
      (by simp [engineInit])
      (by simp [engineInit, newFile, hfmt, writeHeaderSync_parquet])
    have hfiles : (processSingleThread O cfg headers rows).files
        = (engineFold O cfg headers rows).finished ++
          [closeFile cfg.outputFormat (engineFold O cfg headers rows).current] := rfl
    rw [hfiles, List.mem_append, List.mem_singleton] at hf
    rcases hf with hf | hf
    · exact h.1 f hf
    · subst hf
      simp [closeFile, hfmt, writeFooterSync_parquet, engineFold, h.2]
  · set cfg2 : Config := { cfg with outputFormat := "csv" } with hcfg2
    have hpipe : initializeTransformations O cfg2 = initializeTransformations O cfg := rfl
    have h := foldl_records_pair cfg cfg2
      (initializeTransformations O cfg) headers
      (engineOutputHeaders O cfg headers)
      (engineOutputHeaders O cfg2 headers)
      rows (engineInit O cfg headers) (engineInit O cfg2 headers)
      rfl (by simp [engineInit]) (by simp [engineInit, newFile])
    show (((engineFold O cfg headers rows).finished ++
        [closeFile cfg.outputFormat (engineFold O cfg headers rows).current]).map
          OutFile.records)
      = (((engineFold O cfg2 headers rows).finished ++
        [closeFile cfg2.outputFormat (engineFold O cfg2 headers rows).current]).map
          OutFile.records)
    rw [List.map_append, List.map_append, engineFold, engineFold, hpipe]
    rw [h.1]
    simp [closeFile_records, h.2]
  · exact (sequential_row_conservation O cfg headers rows).2.1

/-- Closed instantiation of `parquet_run_writes_no_bytes`: a two-row
parquet run counts both rows. -/
theorem parquet_run_writes_no_bytes_witness :
    (csvParserInit { outputFormat := some "parquet" }).outputFormat = "parquet" ∧
    (processSingleThread trivialOracles
        (csvParserInit { outputFormat := some "parquet" }) ["id"] [rowX, rowX]).totalRows
        + droppedCount trivialOracles (csvParserInit { outputFormat := some "parquet" })
          ["id"] [rowX, rowX] = 2 :=
  ⟨rfl,
    (parquet_run_writes_no_bytes trivialOracles
      (csvParserInit { outputFormat := some "parquet" }) ["id"] [rowX, rowX]
      rfl).2.2.2.2.2⟩

/-! ## Pipeline ordering, short-circuit and aggregation -/

theorem pipelineTransform_append (l1 l2 : List Transformer) (row : Row)
    (hs : List String) :
    pipelineTransform (l1 ++ l2) row hs
      = (match pipelineTransform l1 row hs with
         | none => none
         | some m => pipelineTransform l2 m hs) := by
  induction l1 generalizing row with
  | nil => simp [pipelineTransform]
  | cons u l1 ih =>
    rw [List.cons_append, pipelineTransform, pipelineTransform]
    cases u.transform row hs with
    | none => rfl
    | some m => exact ih m

theorem pipelineRunCount_fst (ts : List Transformer) (row : Row) (hs : List String) :
    (pipelineRunCount ts row hs).1 = pipelineTransform ts row hs := by
  induction ts generalizing row with
  | nil => rfl
  | cons u ts ih =>
    rw [pipelineRunCount, pipelineTransform]
    cases u.transform row hs with
    | none => rfl
    | some m => exact ih m

theorem pipelineRunCount_drop (ts1 ts2 : List Transformer) (t : Transformer)
    (row r : Row) (hs : List String)
    (h1 : pipelineTransform ts1 row hs = some r) (h2 : t.transform r hs = none) :
    (pipelineRunCount (ts1 ++ t :: ts2) row hs).2 = ts1.length + 1 := by
  induction ts1 generalizing row with
  | nil =>
    rw [pipelineTransform] at h1
    cases h1
    rw [List.nil_append, pipelineRunCount, h2]
    rfl
  | cons u ts1 ih =>
    rw [pipelineTransform] at h1
    rw [List.cons_append, pipelineRunCount]
    cases hu : u.transform row hs with
    | none => rw [hu] at h1; exact absurd h1 (by simp)
    | some m =>
      rw [hu] at h1
      simp only [List.length_cons]
      rw [ih m h1]

/-- C4: the pipeline applies its transformers in order; if any
transformer returns the dropped sentinel, the pipeline immediately
returns dropped — later transformers are not invoked (the invocation
count stops at the dropping stage) and the Aggregator's observation
state is untouched; otherwise, with aggregation enabled, the Aggregator
observes exactly the final transformed row before it is returned. -/
theorem pipeline_order_shortcircuit_aggregation
    (ts1 ts2 : List Transformer) (t : Transformer) (hs : List String)
    (row r : Row) (agg : List Row) :
    (pipelineTransform (ts1 ++ ts2) row hs
        = (match pipelineTransform ts1 row hs with
           | none => none
           | some m => pipelineTransform ts2 m hs)) ∧
    (pipelineTransform ts1 row hs = some r → t.transform r hs = none →
      pipelineTransform (ts1 ++ t :: ts2) row hs = none ∧
      pipelineTransformFull (ts1 ++ t :: ts2) (some agg) row hs = (none, some agg) ∧
      (pipelineRunCount (ts1 ++ t :: ts2) row hs).2 = ts1.length + 1) ∧
    (∀ res, pipelineTransform (ts1 ++ t :: ts2) row hs = some res →
      pipelineTransformFull (ts1 ++ t :: ts2) (some agg) row hs
        = (some res, some (agg ++ [res]))) := by
  refine ⟨pipelineTransform_append ts1 ts2 row hs, ?_, ?_⟩
  · intro h1 h2
    have hnone : pipelineTransform (ts1 ++ t :: ts2) row hs = none := by
      rw [pipelineTransform_append, h1]
      show pipelineTransform (t :: ts2) r hs = none
      rw [pipelineTransform, h2]
    refine ⟨hnone, ?_, pipelineRunCount_drop ts1 ts2 t row r hs h1 h2⟩
    rw [pipelineTransformFull, hnone]
  · intro res hres
    rw [pipelineTransformFull, hres]
    rfl

/-- The identity pipeline stage used by the closed witness. -/
def idT : Transformer := { transform := fun row _ => some row }

/-- The always-dropping pipeline stage used by the closed witness. -/
def dropT : Transformer := { transform := fun _ _ => none }

/-- Closed instantiation of `pipeline_order_shortcircuit_aggregation`:
an identity stage followed by a dropping stage and another identity
stage drops the row after exactly two invocations, leaving the
Aggregator untouched. -/
theorem pipeline_order_shortcircuit_aggregation_witness :
    pipelineTransform ([idT] ++ dropT :: [idT]) [("a", JSValue.vstr "1")] ["a"]
        = none ∧
    pipelineTransformFull ([idT] ++ dropT :: [idT]) (some [])
        [("a", JSValue.vstr "1")] ["a"] = (none, some []) ∧
    (pipelineRunCount ([idT] ++ dropT :: [idT]) [("a", JSValue.vstr "1")] ["a"]).2
        = 2 := by
  have h := (pipeline_order_shortcircuit_aggregation [idT] [idT] dropT ["a"]
    [("a", JSValue.vstr "1")] [("a", JSValue.vstr "1")] []).2.1 rfl rfl
  exact ⟨h.1, h.2.1, h.2.2⟩

/-! ## Validator semantics -/

/-- C8: if a configured column's value is missing or empty, no rule
except `required` applies (the violation verdict is exactly the
`required` flag); the `min`/`max` bounds are checked only when the value
parses as a number (a NaN value makes the verdict independent of them);
and a violated rule makes the Validator return the dropped sentinel —
its only outcomes are `none` or the row unchanged, and it returns `none`
exactly when some configured rule is violated. -/
theorem validator_rule_semantics (O : JSOracles) (value : Option JSValue)
    (rule : ValidationRule) (rules : List (String × ValidationRule)) (row : Row) :
    (isEmptyV value = true → ruleViolated O value rule = rule.required) ∧
    (jsNumberOpt value = none →
      ruleViolated O value rule
        = ruleViolated O value { rule with min := none, max := none }) ∧
    (dataValidatorTransform O rules row = none ∨
      dataValidatorTransform O rules row = some row) ∧
    (dataValidatorTransform O rules row = none ↔
      ∃ p ∈ rules, ruleViolated O (rowGet row p.1) p.2 = true) := by
  refine ⟨?_, ?_, ?_, ?_⟩
  · intro h
    cases rule with
    | mk required type minLength maxLength pat mn mx en =>
      cases type <;> cases pat <;> cases mn <;> cases mx <;> cases en <;>
        simp [ruleViolated, h]
  · intro h
    cases rule with
    | mk required type minLength maxLength pat mn mx en =>
      cases mn <;> cases mx <;> simp [ruleViolated, h]
  · induction rules with
    | nil => right; rfl
    | cons p rest ih =>
      obtain ⟨c, r⟩ := p
      rw [dataValidatorTransform]
      by_cases h : ruleViolated O (rowGet row c) r = true
      · rw [if_pos h]
        left
        rfl
      · rw [if_neg h]
        exact ih
  · induction rules with
    | nil => simp [dataValidatorTransform]
    | cons p rest ih =>
      obtain ⟨c, r⟩ := p
      rw [dataValidatorTransform]
      by_cases h : ruleViolated O (rowGet row c) r = true
      · simp only [if_pos h]
        constructor
        · intro _
          exact ⟨(c, r), List.mem_cons_self _ _, h⟩
        · intro _
          trivial
      · rw [if_neg h, ih]
        constructor
        · intro ⟨q, hq, hviol⟩
          exact ⟨q, List.mem_cons_of_mem _ hq, hviol⟩
        · intro ⟨q, hq, hviol⟩
          rcases List.mem_cons.mp hq with hq | hq
          · subst hq
            exact absurd hviol h
          · exact ⟨q, hq, hviol⟩

/-- Closed instantiation of `validator_rule_semantics`: an absent value
with a `minLength` rule but no `required` flag is not dropped. -/
theorem validator_rule_semantics_witness :
    isEmptyV none = true ∧
    ruleViolated trivialOracles none { required := false, minLength := 5 }
      = ({ required := false, minLength := 5 } : ValidationRule).required :=
  ⟨rfl, (validator_rule_semantics trivialOracles none
    { required := false, minLength := 5 } [] []).1 rfl⟩

/-! ## Format writer objects (`src/formatters/index.js`) -/

/-- A constructed formatter object.  `json` carries the constructor's
`format` option (the factory passes the lowercased format name, so it is
`"json"` or `"jsonl"`, never `"array"`); `xml` carries the root and row
element names; `parquet` carries the batch size. -/
inductive Formatter where
  | csv
  | json (format : String)
  | xml (rootElement rowElement : String)
  | tsv
  | parquet (batchSize : ℕ)
deriving DecidableEq

/-- `createFormatter`: the factory's switch on the lowercased format
name; an unrecognized name throws `Unsupported output format: <name>`.
The `CSVParser` always passes `rootElement: 'data'`, `rowElement: 'row'`
and no batch-size option (default 10000). -/
def createFormatter (format : String) : Except String Formatter :=
  match jsToLower format with
  | "csv" => .ok .csv
  | "json" => .ok (.json "json")
  | "jsonl" => .ok (.json "jsonl")
  | "xml" => .ok (.xml "data" "row")
  | "tsv" => .ok .tsv
  | "parquet" => .ok (.parquet 10000)
  | _ => .error ("Unsupported output format: " ++ format)

/-- `getSupportedFormats()` membership, on the lowercased name. -/
def supportedFormat (format : String) : Bool :=
  ["csv", "json", "jsonl", "xml", "tsv", "parquet"].contains (jsToLower format)

theorem createFormatter_error (format : String)
    (h : supportedFormat format = false) :
    createFormatter format = .error ("Unsupported output format: " ++ format) := by
  rw [createFormatter.eq_def]
  split
  · rename_i heq
    rw [supportedFormat, heq] at h
    exact absurd h (by decide)
  · rename_i heq
    rw [supportedFormat, heq] at h
    exact absurd h (by decide)
  · rename_i heq
    rw [supportedFormat, heq] at h
    exact absurd h (by decide)
  · rename_i heq
    rw [supportedFormat, heq] at h
    exact absurd h (by decide)
  · rename_i heq
    rw [supportedFormat, heq] at h
    exact absurd h (by decide)
  · rename_i heq
    rw [supportedFormat, heq] at h
    exact absurd h (by decide)
  · rfl

/-- `JSONFormatter.writeHeader`: bytes written and the new `isFirstRow`
flag (reset to `true`). -/
def jsonFormatterWriteHeader (fmt : String) : String × Bool :=
  ((if fmt = "array" then "[\n" else ""), true)

/-- `JSONFormatter.writeRow`: bytes written and the new `isFirstRow`
flag.  Note the branches test only `'jsonl'` and `'array'`; any other
`format` value writes nothing. -/
def jsonFormatterWriteRow (fmt : String) (isFirstRow : Bool) (row : Row) :
    String × Bool :=
  if fmt = "jsonl" then (jsonStringify row ++ "\n", isFirstRow)
  else if fmt = "array" then
    ((if !isFirstRow then ",\n" else "") ++ "  " ++ jsonStringify row, false)
  else ("", isFirstRow)

/-- `JSONFormatter.writeFooter`. -/
def jsonFormatterWriteFooter (fmt : String) : String :=
  if fmt = "array" then "\n]\n" else ""

/-- The full content of one output file produced through a
`JSONFormatter`: header call, each row in order, footer call. -/
def jsonFormatterFile (fmt : String) (rows : List Row) : String :=
  let h := jsonFormatterWriteHeader fmt
  let final := rows.foldl
    (fun (acc : String × Bool) row =>
      let w := jsonFormatterWriteRow fmt acc.2 row
      (acc.1 ++ w.1, w.2))
    h
  final.1 ++ jsonFormatterWriteFooter fmt

/-- `CSVParser.process` for a sequential run, up to the filesystem
collaborators: `initializeFormatter` (the `createFormatter` call) runs
before source validation, header detection and streaming, so an
unsupported format name aborts the run with an error carrying no result
and producing no output files; otherwise the sequential engine runs. -/
def csvParserProcess (O : JSOracles) (options : CSVParserOptions)
    (headers : List String) (rows : List Row) : Except String RunResult :=
  match createFormatter (csvParserInit options).outputFormat with
  | .error e => .error e
  | .ok _ => .ok (processSingleThread O (csvParserInit options) headers rows)

/-- C5 (amended): an unsupported output format name makes the run fail
with the fatal `Unsupported output format` error before streaming starts
and before any output is produced (the error result carries no files);
non-positive row/worker counts are *not* part of this check — see the
counterexample theorem. -/
theorem unsupported_format_fails_before_output (O : JSOracles)
    (options : CSVParserOptions) (headers : List String) (rows : List Row)
    (h : supportedFormat (csvParserInit options).outputFormat = false) :
    csvParserProcess O options headers rows
      = .error ("Unsupported output format: "
          ++ (csvParserInit options).outputFormat) := by
  rw [csvParserProcess, createFormatter_error _ h]

/-- Closed instantiation of `unsupported_format_fails_before_output` at
the format name `yaml`. -/
theorem unsupported_format_fails_before_output_witness :
    supportedFormat (csvParserInit { outputFormat := some "yaml" }).outputFormat
        = false ∧
    csvParserProcess trivialOracles { outputFormat := some "yaml" } ["a"] []
        = .error ("Unsupported output format: yaml") :=
  ⟨by decide,
    unsupported_format_fails_before_output trivialOracles
      { outputFormat := some "yaml" } ["a"] [] (by decide)⟩

/-- C5 counterexample: a configuration with a non-positive
`maxRowsPerFile` or worker count is *not* rejected: the run with
`maxRowsPerFile = -1` completes successfully (no `ConfigurationInvalid`
error), `0` silently falls back to the defaults through the `||`
defaulting, and negative values are stored and used as-is. -/
theorem nonpositive_counts_not_rejected :
    (csvParserProcess trivialOracles { maxRowsPerFile := some (-1) } ["id"]
        [rowX]).isOk = true ∧
    (csvParserInit { maxRowsPerFile := some (-1) }).maxRowsPerFile = -1 ∧
    (csvParserInit { maxRowsPerFile := some 0 }).maxRowsPerFile = 100000 ∧
    (csvParserInit { processCount := some (-2) }).processCount = -2 ∧
    (csvParserInit { processCount := some 0 }).processCount = 4 := by
  exact ⟨by decide, rfl, rfl, rfl, rfl⟩

/-- C6: the JSON-array framing exists only in `JSONFormatter`'s dead
`'array'` branch.  Selecting format `json` constructs a `JSONFormatter`
whose `format` field is `"json"`, for which the header, row and footer
writers all emit nothing (the file content for any rows is empty), while
the synchronous sequential writer emits JSON-Lines; the factory rejects
`array` outright.  The claimed framing is exactly what the `'array'`
branch would produce, but no run can reach it. -/
theorem json_array_framing_unreachable :
    createFormatter "json" = .ok (Formatter.json "json") ∧
    jsonFormatterFile "json" [[("a", JSValue.vstr "1")], [("a", JSValue.vstr "2")]]
        = "" ∧
    writeRowSync "json" ["a"] [("a", JSValue.vstr "1")] = "\x7b\"a\":\"1\"\x7d\n" ∧
    createFormatter "array" = .error ("Unsupported output format: array") ∧
    jsonFormatterFile "array" [[("a", JSValue.vstr "1")], [("a", JSValue.vstr "2")]]
        = "[\n  \x7b\"a\":\"1\"\x7d,\n  \x7b\"a\":\"2\"\x7d\n]\n" := by
  refine ⟨rfl, by decide, by decide, rfl, by decide⟩

/-! ## Parallel worker chunk processing (`src/workers/csv-worker.js`)

The worker buffers its byte range, splits it on newlines and iterates
the lines from `startIndex = isFirstChunk ? 1 : 0` where
`isFirstChunk = startByte === 0`; each non-blank line is parsed by a
naive comma split, passed through the worker's own simplified
transformation function, and written/counted.  `processChunk` below
returns the list of transformed rows the worker writes and counts, in
order (the per-file rotation and output bytes are not needed by the
claims about the worker). -/

/-- `val.replace(/^"|"$/g, '')`: remove one leading and one trailing
double quote. -/
def stripQuotesList (l : List Char) : List Char :=
  let l1 := match l with
    | '"' :: rest => rest
    | _ => l
  match l1.getLast? with
  | some '"' => l1.dropLast
  | _ => l1

/-- The worker's validation rule subset: only `required`, `minLength`
and `pattern` are supported (`0` models an absent `minLength`, matching
its JavaScript truthiness guard). -/
structure WorkerValidationRule where
  required : Bool := false
  minLength : ℕ := 0
  pattern : Option (String → Bool) := none

/-- The `transformations` object as the worker interprets it. -/
structure WorkerTransformations where
  includeColumns : Option (List String) := none
  typeConversions : Option (List (String × String)) := none
  validation : Option (List (String × WorkerValidationRule)) := none

/-- The worker's conversion switch (note: unlike the main
`DataTypeConverter` it does not lowercase the kind, uses
`Number(x) || 0` and `Boolean(x)` — plain truthiness — and has no
`try`/`catch` of its own: a throwing `date` conversion (`none` from the
oracle) aborts the whole line, which the per-line `catch` then skips). -/
def workerConvertValue (O : JSOracles) (kind : String) (v : JSValue) :
    Option JSValue :=
  match kind with
  | "number" => some (.vnum ((jsNumber v).getD 0))
  | "boolean" => some (.vbool (!jsFalsy v))
  | "date" => (O.datetimeISO (jsString v)).map .vstr
  | "uppercase" => some (.vstr (jsToUpper (jsString v)))
  | "lowercase" => some (.vstr (jsToLower (jsString v)))
  | _ => some v

/-- The worker's `typeConversions` loop; only columns that are defined
are converted, and a thrown conversion propagates (`none`). -/
def workerApplyConversions (O : JSOracles) (conversions : List (String × String))
    (row : Row) : Option Row :=
  conversions.foldl
    (fun acc p =>
      match acc with
      | none => none
      | some r =>
        match rowGet r p.1 with
        | none => some r
        | some v => (workerConvertValue O p.2 v).map (rowSet r p.1))
    (some row)

/-- One worker validation rule check
(`!value || value.toString().trim() === ''` for `required`; `minLength`
and `pattern` only fire on truthy values). -/
def workerRuleViolated (rule : WorkerValidationRule) (value : Option JSValue) :
    Bool :=
  (rule.required && (jsFalsyOpt value || jsTrim (jsStringOpt value) = "")) ||
  (rule.minLength != 0 && !jsFalsyOpt value &&
    decide ((jsStringOpt value).length < rule.minLength)) ||
  (match rule.pattern with
   | some p => !jsFalsyOpt value && !p (jsStringOpt value)
   | none => false)

/-- The worker's `applyTransformations`: include-column filtering (note:
an *empty* include list is truthy in JavaScript and empties the row,
unlike the main `ColumnFilter`), then type conversions, then the
validation subset; `none` means the line is skipped. -/
def workerApplyTransformations (O : JSOracles)
    (trans : Option WorkerTransformations) (row : Row) : Option Row :=
  match trans with
  | none => some row
  | some t =>
    let r1 :=
      match t.includeColumns with
      | some incl => incl.filterMap (fun col => (rowGet row col).map (fun v => (col, v)))
      | none => row
    match
      (match t.typeConversions with
       | some conversions => workerApplyConversions O conversions r1
       | none => some r1) with
    | none => none
    | some r2 =>
      if (match t.validation with
          | some rules => rules.any (fun p => workerRuleViolated p.2 (rowGet r2 p.1))
          | none => false) then none
      else some r2

/-- The worker's naive per-line CSV parse: split on commas, strip one
pair of outer quotes per value, bind to the shared headers with
`values[index] || ''`. -/
def workerParseLine (headers : List String) (line : String) : Row :=
  let values := (jsSplit ',' line).map (fun v => String.mk (stripQuotesList v.data))
  headers.enum.map (fun p => (p.2, JSValue.vstr (values.getD p.1 "")))

/-- `processChunk`'s end-of-stream handler: split the buffered byte
range on newlines, start iterating at `startIndex = isFirstChunk ? 1 : 0`
(`isFirstChunk` iff `startByte === 0`), skip blank lines, parse and
transform each remaining line; the returned list is the sequence of
rows written and counted in `rowsProcessed`. -/
def processChunk (O : JSOracles) (startByte : ℕ) (headers : List String)
    (trans : Option WorkerTransformations) (buffer : String) : List Row :=
  let lines := jsSplit '\n' buffer
  let startIndex := if startByte = 0 then 1 else 0
  (lines.drop startIndex).filterMap
    (fun line =>
      let l := jsTrim line
      if l = "" then none
      else workerApplyTransformations O trans (workerParseLine headers l))

/-- C1 is refuted by the code: the worker computes
`startIndex = isFirstChunk ? 1 : 0`, so a partition whose start byte is
*not* 0 processes its first physical line — here the partial remnant
`tial,row` — as a data row instead of skipping it, while the first
partition (start byte 0) is the one that skips exactly one line (its
header).  The claim (and the source's own comment
`// Skip header if not first chunk`) say the opposite of what the code
does for non-first partitions. -/
theorem chunk_first_line_not_skipped :
    processChunk trivialOracles 100 ["a", "b"] none
        "tial,row\nalpha,beta\ngamma,delta"
      = [[("a", JSValue.vstr "tial"), ("b", JSValue.vstr "row")],
         [("a", JSValue.vstr "alpha"), ("b", JSValue.vstr "beta")],
         [("a", JSValue.vstr "gamma"), ("b", JSValue.vstr "delta")]] ∧
    (processChunk trivialOracles 100 ["a", "b"] none
        "tial,row\nalpha,beta\ngamma,delta").length = 3 ∧
    processChunk trivialOracles 0 ["a", "b"] none
        "a,b\nalpha,beta\ngamma,delta"
      = [[("a", JSValue.vstr "alpha"), ("b", JSValue.vstr "beta")],
         [("a", JSValue.vstr "gamma"), ("b", JSValue.vstr "delta")]] := by
  refine ⟨by decide, by decide, by decide⟩

end CSVConv
